import Mathlib

/-!
Verification of the Strict-Python type-discipline layer
(`src/std/type_system.py`), shallowly embedded in Lean.

The embedding follows the source module `src/std/type_system.py`:
`BaseObject.__setattr__` (attribute mutation guard), `ForceStaticTyping`
(call-boundary wrapper), `BaseObjectMetaClass.__new__` and `__init__`
(declaration verifier and friend inheritance), and
`BaseObject.__getattribute__` (access resolver).
-/

namespace StrictPython

/-- Type annotations (the fragment of `typing` hints used by the repository:
`Int`, `Str`, `Bool`, `None`, `NoReturn`, `Final[...]` = `Const`, unions).
`typing.get_origin(Final[t]) == typing.Final` distinguishes `finalT`. -/
inductive PyType where
  | intT
  | strT
  | boolT
  | noneT
  | noReturnT
  | finalT (inner : PyType)
  | unionT (a b : PyType)
deriving DecidableEq, Repr

/-- Runtime values of the host language that the claims exercise. -/
inductive PyVal where
  | vInt (n : Int)
  | vStr (s : String)
  | vBool (b : Bool)
  | vNone
deriving DecidableEq, Repr

/-- Structural matcher, the embedding of `typeguard.check_type` on the hint
fragment above: `true` means `check_type` returns, `false` means it raises
`TypeCheckError`.  `bool` is an `int` subclass, so booleans match `intT`;
`Final[t]` checks its inner hint; union membership is any-alternative. -/
def matchesType (v : PyVal) : PyType → Bool
  | .intT =>
    match v with
    | .vInt _ => true
    | .vBool _ => true
    | _ => false
  | .strT =>
    match v with
    | .vStr _ => true
    | _ => false
  | .boolT =>
    match v with
    | .vBool _ => true
    | _ => false
  | .noneT => v == .vNone
  | .noReturnT => false
  | .finalT t => matchesType v t
  | .unionT a b => matchesType v a || matchesType v b

/-- Embedding of `typing.get_origin(hint) == typing.Final`. -/
def isFinalHint : PyType → Bool
  | .finalT _ => true
  | _ => false

/-- Overwriting store of `object.__setattr__`: replaces the entry for `k`
in the instance attribute map, or appends it. -/
def storeSet (m : List (String × PyVal)) (k : String) (v : PyVal) :
    List (String × PyVal) :=
  match m with
  | [] => [(k, v)]
  | (k0, v0) :: rest =>
    if k0 = k then (k, v) :: rest else (k0, v0) :: storeSet rest k v

/-- Errors that `BaseObject.__setattr__` can raise: `AnnotationException`
(attribute not in the class type hints), `ConstModifierException`,
`TypeMismatchException`. -/
inductive SetErr where
  | missingAnn
  | constViolation
  | typeMismatch
deriving DecidableEq, Repr

/-- Context of one `__setattr__` call: the class's `typing.get_type_hints`
map and `inspect.stack()[1].function`, the name of the immediately calling
function (all that the source reads about the caller). -/
structure SetCtx where
  typeHints : List (String × PyType)
  callerFunction : String
deriving DecidableEq, Repr

/-- Embedding of `BaseObject.__setattr__` (src/std/type_system.py lines
185-223).  Checks, in source order: the key has a type hint (else
`AnnotationException`); a `Final` hint may only be assigned when the
immediate caller is named `__init__` (else `ConstModifierException`);
the value matches the hint (else `TypeMismatchException`); then stores.
The result pairs the raised exception (if any) with the attribute map
after the call: on any exception the map is returned unchanged, since
`object.__setattr__` is only reached after all checks pass. -/
def baseSetattr (ctx : SetCtx) (attrs : List (String × PyVal)) (key : String)
    (value : PyVal) : Option SetErr × List (String × PyVal) :=
  match ctx.typeHints.lookup key with
  | none => (some .missingAnn, attrs)
  | some hint =>
    if isFinalHint hint && !(ctx.callerFunction == "__init__") then
      (some .constViolation, attrs)
    else if matchesType value hint then
      (none, storeSet attrs key value)
    else
      (some .typeMismatch, attrs)

/-- Exceptions the `ForceStaticTyping` wrapper itself raises:
`AnnotationException` for a missing return annotation, `IndexError` from
`function_args[0]` on an empty argument tuple, `AnnotationException` for a
parameter beyond the annotated ones, and `TypeMismatchException`. -/
inductive WrapErr where
  | missingRetAnn
  | indexErr
  | missingParamAnn
  | typeMismatch
deriving DecidableEq, Repr

/-- Observable outcome of one call through the `ForceStaticTyping` wrapper.
`raisedBefore` means the wrapper raised before invoking the underlying
callable (the body never ran, so it had no side effects); `bodyRaised`
means the body raised and the exception propagated unchecked;
`raisedAfter` means the body returned normally and the return check
raised; `returned` is a fully successful call. -/
inductive CallOutcome where
  | raisedBefore (e : WrapErr)
  | bodyRaised (e : String)
  | raisedAfter (e : WrapErr)
  | returned (v : PyVal)
deriving DecidableEq, Repr

/-- The `for argument, expected_argument_type in zip(...)` loop: first
mismatching positional argument raises `TypeMismatchException`; `zip`
truncates at the shorter list. -/
def checkArgsLoop : List PyVal → List PyType → Option WrapErr
  | _, [] => none
  | [], _ => none
  | a :: as, t :: ts =>
    if matchesType a t then checkArgsLoop as ts else some .typeMismatch

/-- Embedding of the `_impl` closure of `ForceStaticTyping`
(src/std/type_system.py lines 70-116).  `retAnn` is the hint popped under
`"return"` (`none` when absent); `paramAnns` the remaining annotation
dictionary in declaration order; `head` the computed flag saying whether
`function_args[0]` is the bound receiver (dropped from the checked set);
`body` the underlying callable, which receives the full positional
arguments and all keyword arguments and either returns a value or raises.
Checks run in source order: missing return annotation, the
`function_args[0]` access, the annotation-count guard, the positional
zip-checks, then the body, then the return check (`NoReturn` requires an
absent result, any other hint is re-matched). -/
def forceStatic (retAnn : Option PyType) (paramAnns : List (String × PyType))
    (head : Bool) (body : List PyVal → List (String × PyVal) → Except String PyVal)
    (args : List PyVal) (kwargs : List (String × PyVal)) : CallOutcome :=
  match retAnn with
  | none => .raisedBefore .missingRetAnn
  | some r =>
    if args.isEmpty then .raisedBefore .indexErr
    else if (paramAnns.map Prod.snd).length < (if head then args.drop 1 else args).length then
      .raisedBefore .missingParamAnn
    else
      match checkArgsLoop (if head then args.drop 1 else args) (paramAnns.map Prod.snd) with
      | some e => .raisedBefore e
      | none =>
        match body args kwargs with
        | .error e => .bodyRaised e
        | .ok rv =>
          if r = .noReturnT then
            if rv ≠ .vNone then .raisedAfter .typeMismatch else .returned rv
          else if matchesType rv r then .returned rv
          else .raisedAfter .typeMismatch

/-- Whether the wrapped call reached the underlying body. -/
def bodyRan : CallOutcome → Bool
  | .raisedBefore _ => false
  | _ => true

/-- A member callable as the declaration verifier sees it: the
`__is_virtual__` / `__is_abstract__` / `__is_override__` marker attributes
set by the decorators in `src/std/type_system.py`, and its declared return
hint (`none` when the signature has no return annotation).  `functools.wraps`
copies the marker attributes onto the `ForceStaticTyping` wrapper, so the
record survives wrapping unchanged. -/
structure PyFun where
  isVirtual : Bool
  isAbstract : Bool
  isOverride : Bool
  retAnn : Option PyType
deriving DecidableEq, Repr

/-- A class-dictionary entry: a callable, or a plain (non-callable) value,
which every metaclass loop skips. -/
inductive Member where
  | fn (f : PyFun)
  | plain
deriving DecidableEq, Repr

/-- A constructed class: its name, its own `__dict__` entries, and its
`__friends__` set as fixed by the metaclass `__init__`.  Distinct classes
are assumed to have distinct names, so the source's identity tests on
class objects are modelled as name tests. -/
structure PyClass where
  name : String
  dict : List (String × Member)
  friends : Finset String
deriving DecidableEq

deriving instance DecidableEq for Except

/-- Declaration-time exceptions of `BaseObjectMetaClass.__new__`. -/
inductive DeclErr where
  | virtualErr
  | overrideErr
  | abstractErr
deriving DecidableEq, Repr

/-- Whether a member carries `__is_virtual__` (`hasattr` on a plain value
is false). -/
def memVirtual : Member → Bool
  | .fn f => f.isVirtual
  | .plain => false

/-- Whether a member carries `__is_abstract__`. -/
def memAbstract : Member → Bool
  | .fn f => f.isAbstract
  | .plain => false

/-- Whether a dictionary entry is callable. -/
def memCallable : Member → Bool
  | .fn _ => true
  | .plain => false

/-- The metaclass blacklist: the only names exempt from wrapping and from
the virtual/override checks. -/
def blacklisted (n : String) : Bool :=
  n == "__getattr__" || n == "__setattr__" || n == "__getattribute__"

/-- The two `if attr_name in b.__dict__ ...` tests of
`BaseObjectMetaClass.__new__` against one base: a shared name whose base
member is neither virtual nor abstract raises `VirtualMethodException`;
otherwise a shared name whose new member lacks the override marker raises
`OverrideMethodException`. -/
def entryBaseErr (f : PyFun) (n : String) (b : PyClass) : Option DeclErr :=
  match b.dict.lookup n with
  | some m =>
    if !(memVirtual m || memAbstract m) then some .virtualErr
    else if !f.isOverride then some .overrideErr
    else none
  | none => none

/-- The `for b in filter(lambda c: c != BaseObject, bases)` loop for one
dictionary entry (the filter is applied by the caller). -/
def entryBasesErr (f : PyFun) (n : String) : List PyClass → Option DeclErr
  | [] => none
  | b :: bs =>
    match entryBaseErr f n b with
    | some e => some e
    | none => entryBasesErr f n bs

/-- The first loop of `BaseObjectMetaClass.__new__` over the new class's
dictionary: non-callable and blacklisted entries are skipped, each other
callable is checked against every (non-`BaseObject`) base, and the first
violation wins. -/
def wrapChecks (bases : List PyClass) : List (String × Member) → Option DeclErr
  | [] => none
  | (_, .plain) :: rest => wrapChecks bases rest
  | (n, .fn f) :: rest =>
    if blacklisted n then wrapChecks bases rest
    else
      match entryBasesErr f n bases with
      | some e => some e
      | none => wrapChecks bases rest

/-- `b_attr_name not in dictionary`, negated: key membership in the new
class's own dictionary. -/
def dictHasKey (dict : List (String × Member)) (n : String) : Bool :=
  dict.any (fun p => p.1 == n)

/-- The abstract-method loop of `BaseObjectMetaClass.__new__` over one
base's own `__dict__`: a callable base member carrying `__is_abstract__`
whose name is missing from the new class's own dictionary raises
`AbstractMethodException`. -/
def abstractScanDict (dict : List (String × Member)) :
    List (String × Member) → Option DeclErr
  | [] => none
  | (n, m) :: rest =>
    if memCallable m && memAbstract m && !dictHasKey dict n then
      some .abstractErr
    else abstractScanDict dict rest

/-- The abstract-method loop over all direct bases (unfiltered,
`for b in bases`). -/
def abstractScan (dict : List (String × Member)) : List PyClass → Option DeclErr
  | [] => none
  | b :: bs =>
    match abstractScanDict dict b.dict with
    | some e => some e
    | none => abstractScan dict bs

/-- `BaseObject.__friends__`, the friend set declared on the root class. -/
def baseObjFriends : Finset String := {"inspect._getmembers"}

/-- Attribute lookup of `cls.__friends__` when the new class itself
declares none: the first entry of the resolution order after the class is
its first direct base, and every metaclass-made class carries `__friends__`
in its own dictionary, so the lookup yields the first base's friend set. -/
def inheritedFriends : List PyClass → Finset String
  | [] => ∅
  | b :: _ => b.friends

/-- Embedding of `BaseObjectMetaClass.__init__` (src/std/type_system.py
lines 163-173): `cls.__friends__ = set(cls.__friends__).union(
cls.__mro__[-2].__friends__)`.  For every class below `BaseObject` the
second-to-last resolution-order entry is `BaseObject` itself, so the
merged-in set is always `BaseObject.__friends__` — not the direct bases'
friend sets. -/
def classFriends (declared : Option (Finset String)) (bases : List PyClass) :
    Finset String :=
  (match declared with
   | some s => s
   | none => inheritedFriends bases) ∪ baseObjFriends

/-- Full class construction through the metaclass: `__new__` runs the
wrap-time virtual/override checks (bases filtered to exclude `BaseObject`)
and then the abstract-implementation loop (all bases); on success
`__init__` fixes the friend set.  `declared` is the `__friends__` entry of
the class body, if any. -/
def makeClass (name : String) (bases : List PyClass)
    (dict : List (String × Member)) (declared : Option (Finset String)) :
    Except DeclErr PyClass :=
  match wrapChecks (bases.filter (fun b => !(b.name == "BaseObject"))) dict with
  | some e => .error e
  | none =>
    match abstractScan dict bases with
    | some e => .error e
    | none => .ok ⟨name, dict, classFriends declared bases⟩

/-- The root class `BaseObject` as built by the metaclass: its dictionary
holds the two overridden accessors (blacklisted, hence unwrapped;
`__setattr__` is annotated `-> typing.NoReturn`, `__getattribute__` has no
return annotation) and its friend set is `{"inspect._getmembers"}`. -/
def baseObjectC : PyClass :=
  ⟨"BaseObject",
   [("__setattr__", .fn ⟨false, false, false, some .noReturnT⟩),
    ("__getattribute__", .fn ⟨false, false, false, none⟩)],
   baseObjFriends⟩

/-- Python `str.startswith`, computed on the character lists. -/
def pyStarts (s p : String) : Bool :=
  List.isPrefixOf p.data s.data

/-- Python `str.endswith`, computed on the character lists. -/
def pyEnds (s p : String) : Bool :=
  List.isSuffixOf p.data s.data

/-- Python `str.removeprefix`. -/
def pyRemovePre (s p : String) : String :=
  if pyStarts s p then ⟨s.data.drop p.data.length⟩ else s

/-- Left-to-right, non-overlapping replacement of every occurrence of
`pat`, as Python `str.replace` performs it.  The fuel argument (the input
length) only bounds the recursion: every step consumes at least one
character of the input when `pat` is nonempty, the sole case the source
exercises. -/
def replaceFuel (pat rep : List Char) : Nat → List Char → List Char
  | 0, l => l
  | _ + 1, [] => []
  | fuel + 1, c :: rest =>
    if List.isPrefixOf pat (c :: rest) then
      rep ++ replaceFuel pat rep fuel ((c :: rest).drop pat.length)
    else c :: replaceFuel pat rep fuel rest

/-- Python `str.replace`. -/
def pyReplace (s pat rep : String) : String :=
  if pat.data.isEmpty then s
  else ⟨replaceFuel pat.data rep.data s.data.length s.data⟩

/-- What `BaseObject.__getattribute__` knows about the owning instance:
the exact runtime class name, the names along `__mro__[:-1]` (the class
and its ancestors, `object` excluded), and the instance's `__friends__`. -/
structure GetCtx where
  selfClassName : String
  mroNames : List String
  friends : Finset String
deriving DecidableEq

/-- What `BaseObject.__getattribute__` reads from the immediate calling
frame: its module `__name__`, its code object's name, and — when `"self"`
is among its locals — the exact class name of that receiver. -/
structure Caller where
  globalsName : String
  functionName : String
  receiverClass : Option String
deriving DecidableEq

/-- Embedding of `BaseObject.__getattribute__` (src/std/type_system.py
lines 225-285).  The result is the key actually fetched with
`object.__getattribute__` (the friend-class branch remaps
`_CallerClass...` to `_OwnerClass...`), or an `AccessModifierException`.
Branches in source order: dunder/`inspect` bypass; public names; friend
free function; caller receiver inside the owner's resolution order, with
private (still-`__`-prefixed after stripping `_ExactClassName`) names
refused; friend class with key remap; friend qualified method; deny. -/
def baseGetattribute (ctx : GetCtx) (caller : Caller) (item : String) :
    Except Unit String :=
  if (pyStarts item "__" && pyEnds item "__") || caller.globalsName == "inspect" then
    .ok item
  else if pyStarts item "_" then
    if caller.functionName ∈ ctx.friends ∧ caller.receiverClass = none then
      .ok item
    else
      match caller.receiverClass with
      | some crn =>
        if crn ∈ ctx.mroNames ∧
            !(pyStarts (pyRemovePre item ("_" ++ ctx.selfClassName)) "__") then
          .ok item
        else if crn ∈ ctx.friends then
          .ok (pyReplace item ("_" ++ crn) ("_" ++ ctx.selfClassName))
        else if crn ++ "." ++ caller.functionName ∈ ctx.friends then
          .ok item
        else .error ()
      | none => .error ()
  else .ok item

/-- C1: for an attribute declared with a TypeSpec, whenever the `Const`
gate does not fire (the hint is not `Final`-wrapped, or the caller is a
constructor — `Const` semantics is the subject of C2), a structurally
matching assignment succeeds and stores the value, and a mismatched
assignment raises `TypeMismatchException` and leaves the attribute map —
hence the prior value or absence of the attribute — unchanged. -/
theorem setattr_type_guard (ctx : SetCtx) (attrs : List (String × PyVal))
    (key : String) (value : PyVal) (hint : PyType)
    (hdecl : ctx.typeHints.lookup key = some hint)
    (hconst : isFinalHint hint = true → ctx.callerFunction = "__init__") :
    (matchesType value hint = true →
      baseSetattr ctx attrs key value = (none, storeSet attrs key value)) ∧
    (matchesType value hint = false →
      baseSetattr ctx attrs key value = (some .typeMismatch, attrs)) := by
  have hgate : (isFinalHint hint && !(ctx.callerFunction == "__init__")) = false := by
    cases hf : isFinalHint hint with
    | false => simp
    | true => simp [hconst hf]
  constructor
  · intro hm
    simp [baseSetattr, hdecl, hgate, hm]
  · intro hm
    simp [baseSetattr, hdecl, hgate, hm]

/-- Witness for C1 at a concrete input: attribute `x : int`, caller `m`;
assigning `3` stores it, then assigning `"a"` raises `TypeMismatchException`
and leaves the stored `3` intact. -/
theorem setattr_type_guard_witness :
    baseSetattr ⟨[("x", PyType.intT)], "m"⟩ [] "x" (PyVal.vInt 3) =
      (none, [("x", PyVal.vInt 3)]) ∧
    baseSetattr ⟨[("x", PyType.intT)], "m"⟩ [("x", PyVal.vInt 3)] "x"
        (PyVal.vStr "a") =
      (some SetErr.typeMismatch, [("x", PyVal.vInt 3)]) := by
  refine ⟨?_, ?_⟩
  · exact (setattr_type_guard ⟨[("x", PyType.intT)], "m"⟩ [] "x" (PyVal.vInt 3)
      PyType.intT (by decide) (by decide)).1 (by decide)
  · exact (setattr_type_guard ⟨[("x", PyType.intT)], "m"⟩ [("x", PyVal.vInt 3)]
      "x" (PyVal.vStr "a") PyType.intT (by decide) (by decide)).2 (by decide)

/-- C2 (counterexample): the claim says a `Const` attribute can be set
exactly once and that a set attempt re-entering a constructor raises
`ConstModifierException` leaving the value unchanged.  In the source the
only gate is `inspect.stack()[1].function == "__init__"`: with `x :
Final[int]` already holding `1`, a second assignment whose immediate
caller is named `__init__` succeeds and overwrites the stored value. -/
theorem setattr_const_reenter_counterexample :
    baseSetattr ⟨[("x", PyType.finalT PyType.intT)], "__init__"⟩
      [("x", PyVal.vInt 1)] "x" (PyVal.vInt 2) = (none, [("x", PyVal.vInt 2)]) := by
  decide

/-- C2 (amended): a `Final`-hinted attribute can be assigned exactly when
the immediate caller's function name is `"__init__"` — whichever class's
constructor (or any function so named) that is, and however many times;
an assignment whose immediate caller is not named `"__init__"` raises
`ConstModifierException` and leaves the attribute map unchanged. -/
theorem setattr_const_guard (ctx : SetCtx) (attrs : List (String × PyVal))
    (key : String) (value : PyVal) (hint : PyType)
    (hdecl : ctx.typeHints.lookup key = some hint)
    (hfin : isFinalHint hint = true) :
    (ctx.callerFunction ≠ "__init__" →
      baseSetattr ctx attrs key value = (some .constViolation, attrs)) ∧
    (ctx.callerFunction = "__init__" → matchesType value hint = true →
      baseSetattr ctx attrs key value = (none, storeSet attrs key value)) := by
  constructor
  · intro hne
    have : (ctx.callerFunction == "__init__") = false := by
      simpa using hne
    simp [baseSetattr, hdecl, hfin, this]
  · intro heq hm
    simp [baseSetattr, hdecl, heq, hm]

/-- Witness for C2's amended theorem: `x : Final[int]`; an assignment whose
caller is named `method` raises `ConstModifierException` leaving the map
unchanged, and an assignment from a caller named `__init__` stores `5`. -/
theorem setattr_const_guard_witness :
    baseSetattr ⟨[("x", PyType.finalT PyType.intT)], "method"⟩ [] "x"
        (PyVal.vInt 5) = (some SetErr.constViolation, []) ∧
    baseSetattr ⟨[("x", PyType.finalT PyType.intT)], "__init__"⟩ [] "x"
        (PyVal.vInt 5) = (none, [("x", PyVal.vInt 5)]) := by
  refine ⟨?_, ?_⟩
  · exact (setattr_const_guard ⟨[("x", PyType.finalT PyType.intT)], "method"⟩
      [] "x" (PyVal.vInt 5) (PyType.finalT PyType.intT) (by decide)
      (by decide)).1 (by decide)
  · exact (setattr_const_guard ⟨[("x", PyType.finalT PyType.intT)], "__init__"⟩
      [] "x" (PyVal.vInt 5) (PyType.finalT PyType.intT) (by decide)
      (by decide)).2 (by decide) (by decide)

/-- The positional-check loop raises `TypeMismatchException` whenever some
zipped (argument, annotation) pair mismatches. -/
theorem checkArgsLoop_mismatch (as : List PyVal) (ts : List PyType)
    (hlen : as.length ≤ ts.length)
    (hmm : ∃ p ∈ List.zip as ts, matchesType p.1 p.2 = false) :
    checkArgsLoop as ts = some .typeMismatch := by
  induction as generalizing ts with
  | nil => simp at hmm
  | cons a as ih =>
    cases ts with
    | nil => simp at hlen
    | cons t ts =>
      rcases hmm with ⟨p, hp, hpf⟩
      rcases List.mem_cons.1 (by simpa [List.zip] using hp) with hp1 | hp2
      · subst hp1
        simp [checkArgsLoop, hpf]
      · cases hmt : matchesType a t with
        | false => simp [checkArgsLoop, hmt]
        | true =>
          simp only [checkArgsLoop, hmt, if_pos]
          exact ih ts (Nat.le_of_succ_le_succ hlen) ⟨p, hp2, hpf⟩

/-- The positional-check loop passes when every zipped pair matches. -/
theorem checkArgsLoop_allpass (as : List PyVal) (ts : List PyType)
    (hall : ∀ p ∈ List.zip as ts, matchesType p.1 p.2 = true) :
    checkArgsLoop as ts = none := by
  induction as generalizing ts with
  | nil => cases ts <;> rfl
  | cons a as ih =>
    cases ts with
    | nil => rfl
    | cons t ts =>
      have h1 : matchesType a t = true := hall (a, t) (by simp)
      simp only [checkArgsLoop, h1, if_pos]
      exact ih ts (fun p hp => hall p (by simp [List.zip] at hp ⊢; exact Or.inr hp))

/-- C3 (amended): for a wrapped call whose positional arguments are all
annotated, a positionally passed argument violating its annotation makes
the wrapper raise `TypeMismatchException` before the body executes (so the
call has no observable side effects); all positional checks complete
before the body runs, and when they pass an exception raised inside the
body propagates unchecked, without the return check running.  Keyword-
supplied arguments are outside the checked set (see C10). -/
theorem wrapper_param_checks (r : PyType) (paramAnns : List (String × PyType))
    (head : Bool) (body : List PyVal → List (String × PyVal) → Except String PyVal)
    (args : List PyVal) (kwargs : List (String × PyVal))
    (hne : args ≠ [])
    (hlen : (if head then args.drop 1 else args).length ≤
      (paramAnns.map Prod.snd).length) :
    ((∃ p ∈ List.zip (if head then args.drop 1 else args) (paramAnns.map Prod.snd),
        matchesType p.1 p.2 = false) →
      forceStatic (some r) paramAnns head body args kwargs =
        .raisedBefore .typeMismatch) ∧
    ((∀ p ∈ List.zip (if head then args.drop 1 else args) (paramAnns.map Prod.snd),
        matchesType p.1 p.2 = true) →
      ∀ e, body args kwargs = Except.error e →
      forceStatic (some r) paramAnns head body args kwargs = .bodyRaised e) := by
  have hempty : args.isEmpty = false := by
    cases args with
    | nil => exact absurd rfl hne
    | cons a l => rfl
  have hnotlt : ¬ ((paramAnns.map Prod.snd).length <
      (if head then args.drop 1 else args).length) := Nat.not_lt.mpr hlen
  constructor
  · intro hmm
    simp only [forceStatic, hempty, Bool.false_eq_true, if_false, if_neg hnotlt]
    rw [checkArgsLoop_mismatch _ _ hlen hmm]
  · intro hall e hbody
    simp only [forceStatic, hempty, Bool.false_eq_true, if_false, if_neg hnotlt]
    rw [checkArgsLoop_allpass _ _ hall, hbody]

/-- Witness for C3's amended theorem: one parameter `x : int`, receiver
dropped, positional argument `"bad"`; the wrapper raises
`TypeMismatchException` before the body runs. -/
theorem wrapper_param_checks_witness :
    forceStatic (some PyType.intT) [("x", PyType.intT)] true
      (fun _ _ => Except.ok (PyVal.vInt 0)) [PyVal.vNone, PyVal.vStr "bad"] [] =
      CallOutcome.raisedBefore WrapErr.typeMismatch :=
  (wrapper_param_checks PyType.intT [("x", PyType.intT)] true
    (fun _ _ => Except.ok (PyVal.vInt 0)) [PyVal.vNone, PyVal.vStr "bad"] []
    (by decide) (by decide)).1 ⟨(PyVal.vStr "bad", PyType.intT), by decide, by decide⟩

/-- C3 (counterexample): the claim covers every bound, non-variadic
argument, but the source zips only the positional tuple against the
annotations.  Passing the sole parameter `x : int` by keyword with the
non-matching value `"bad"` raises nothing at the boundary: the body runs
and the call returns normally, instead of raising `TypeMismatchException`
before the body. -/
theorem wrapper_kwarg_bypass_counterexample :
    forceStatic (some PyType.intT) [("x", PyType.intT)] true
      (fun _ _ => Except.ok (PyVal.vInt 0)) [PyVal.vNone]
      [("x", PyVal.vStr "bad")] = CallOutcome.returned (PyVal.vInt 0) ∧
    matchesType (PyVal.vStr "bad") PyType.intT = false :=
  ⟨rfl, rfl⟩

/-- C10: only positionally passed arguments are compared against the
declared parameter annotations.  When the positional checks pass, the body
runs for every keyword-argument list — even one binding a declared
parameter to a value violating that parameter's annotation — so a keyword
argument never raises `TypeMismatchException` at the call boundary. -/
theorem wrapper_kwargs_unchecked (r : PyType) (paramAnns : List (String × PyType))
    (head : Bool) (body : List PyVal → List (String × PyVal) → Except String PyVal)
    (args : List PyVal) (kwargs : List (String × PyVal))
    (hne : args ≠ [])
    (hlen : (if head then args.drop 1 else args).length ≤
      (paramAnns.map Prod.snd).length)
    (hall : ∀ p ∈ List.zip (if head then args.drop 1 else args)
      (paramAnns.map Prod.snd), matchesType p.1 p.2 = true)
    (_hviol : ∃ p ∈ kwargs, ∃ t, paramAnns.lookup p.1 = some t ∧
      matchesType p.2 t = false) :
    bodyRan (forceStatic (some r) paramAnns head body args kwargs) = true := by
  have hempty : args.isEmpty = false := by
    cases args with
    | nil => exact absurd rfl hne
    | cons a l => rfl
  have hnotlt : ¬ ((paramAnns.map Prod.snd).length <
      (if head then args.drop 1 else args).length) := Nat.not_lt.mpr hlen
  simp only [forceStatic, hempty, Bool.false_eq_true, if_false, if_neg hnotlt,
    checkArgsLoop_allpass _ _ hall]
  cases body args kwargs with
  | error e => rfl
  | ok rv =>
    dsimp only
    split_ifs <;> rfl

/-- Witness for C10: parameter `x : int`, no positional arguments beyond
the receiver, keyword argument `x = "bad"`; the body runs. -/
theorem wrapper_kwargs_unchecked_witness :
    bodyRan (forceStatic (some PyType.intT) [("x", PyType.intT)] true
      (fun _ _ => Except.ok (PyVal.vInt 0)) [PyVal.vNone]
      [("x", PyVal.vStr "bad")]) = true :=
  wrapper_kwargs_unchecked PyType.intT [("x", PyType.intT)] true
    (fun _ _ => Except.ok (PyVal.vInt 0)) [PyVal.vNone] [("x", PyVal.vStr "bad")]
    (by decide) (by decide) (by decide)
    ⟨("x", PyVal.vStr "bad"), by decide, PyType.intT, by decide, by decide⟩

/-- Class construction succeeds exactly when both metaclass loops find no
violation, and then the produced class is the dictionary with the merged
friend set. -/
theorem makeClass_ok_iff (name : String) (bases : List PyClass)
    (dict : List (String × Member)) (declared : Option (Finset String))
    (c : PyClass) :
    makeClass name bases dict declared = .ok c ↔
      wrapChecks (bases.filter (fun b => !(b.name == "BaseObject"))) dict = none ∧
      abstractScan dict bases = none ∧
      c = ⟨name, dict, classFriends declared bases⟩ := by
  unfold makeClass
  cases hw : wrapChecks (bases.filter (fun b => !(b.name == "BaseObject"))) dict with
  | some e => simp
  | none =>
    cases ha : abstractScan dict bases with
    | some e => simp
    | none => simp [eq_comm]

/-- When the first metaclass loop passes, every non-blacklisted callable
entry of the dictionary passed its per-base checks. -/
theorem wrapChecks_none_sound (bases : List PyClass) (dict : List (String × Member))
    (h : wrapChecks bases dict = none) :
    ∀ n f, (n, Member.fn f) ∈ dict → blacklisted n = false →
      entryBasesErr f n bases = none := by
  induction dict with
  | nil =>
    intro n f hmem
    simp at hmem
  | cons p rest ih =>
    obtain ⟨nm, m⟩ := p
    intro n f hmem hbl
    cases m with
    | plain =>
      rcases List.mem_cons.1 hmem with h1 | h2
      · exact absurd h1 (by simp)
      · exact ih (by simpa [wrapChecks] using h) n f h2 hbl
    | fn g =>
      simp only [wrapChecks] at h
      rcases List.mem_cons.1 hmem with h1 | h2
      · rw [Prod.mk.injEq] at h1
        obtain ⟨hn, hf⟩ := h1
        injection hf with hfg
        subst hn; subst hfg
        cases hb : blacklisted n with
        | true => exact absurd hbl (by simp [hb])
        | false =>
          rw [hb] at h
          simp only [Bool.false_eq_true, if_false] at h
          cases he : entryBasesErr f n bases with
          | some e => rw [he] at h; simp at h
          | none => rfl
      · cases hb : blacklisted nm with
        | true =>
          rw [hb] at h
          simp only [if_true] at h
          exact ih h n f h2 hbl
        | false =>
          rw [hb] at h
          simp only [Bool.false_eq_true, if_false] at h
          cases he : entryBasesErr g nm bases with
          | some e => rw [he] at h; simp at h
          | none =>
            rw [he] at h
            simp only [] at h
            exact ih h n f h2 hbl

/-- A per-entry pass over the bases means each base sharing the member name
holds a virtual-or-abstract member and the new member carries the override
marker. -/
theorem entryBasesErr_none_sound (f : PyFun) (n : String) (bases : List PyClass)
    (h : entryBasesErr f n bases = none) :
    ∀ b ∈ bases, ∀ m, b.dict.lookup n = some m →
      (memVirtual m || memAbstract m) = true ∧ f.isOverride = true := by
  induction bases with
  | nil =>
    intro b hb
    simp at hb
  | cons b0 bs ih =>
    intro b hb m hm
    simp only [entryBasesErr] at h
    cases he : entryBaseErr f n b0 with
    | some e => rw [he] at h; simp at h
    | none =>
      rw [he] at h
      simp only [] at h
      rcases List.mem_cons.1 hb with rfl | hbs
      · have he2 : (if (!(memVirtual m || memAbstract m)) = true then
              some DeclErr.virtualErr
            else if (!f.isOverride) = true then some DeclErr.overrideErr
            else none) = none := by
          unfold entryBaseErr at he
          rw [hm] at he
          exact he
        rcases Bool.eq_false_or_eq_true (memVirtual m || memAbstract m) with h1 | h1
        · rw [h1] at he2
          simp at he2
          exact ⟨h1, he2⟩
        · rw [h1] at he2
          simp at he2
      · exact ih h b hbs m hm

/-- When the abstract loop over one base dictionary passes, every abstract
callable it holds is re-declared in the new dictionary. -/
theorem abstractScanDict_none_sound (dict bdict : List (String × Member))
    (h : abstractScanDict dict bdict = none) :
    ∀ p ∈ bdict, memCallable p.2 = true → memAbstract p.2 = true →
      dictHasKey dict p.1 = true := by
  induction bdict with
  | nil =>
    intro p hp
    simp at hp
  | cons q rest ih =>
    obtain ⟨nm, m⟩ := q
    intro p hp hc ha
    simp only [abstractScanDict] at h
    cases hcond : (memCallable m && memAbstract m && !dictHasKey dict nm) with
    | true => rw [hcond] at h; simp at h
    | false =>
      rw [hcond] at h
      simp only [Bool.false_eq_true, if_false] at h
      rcases List.mem_cons.1 hp with rfl | hp2
      · have hc2 : memCallable m = true := hc
        have ha2 : memAbstract m = true := ha
        show dictHasKey dict nm = true
        rcases Bool.eq_false_or_eq_true (dictHasKey dict nm) with hk | hk
        · exact hk
        · rw [hc2, ha2, hk] at hcond
          simp at hcond
      · exact ih h p hp2 hc ha

/-- When the abstract loop over all bases passes, every abstract callable of
every base dictionary is re-declared in the new dictionary. -/
theorem abstractScan_none_sound (dict : List (String × Member)) (bases : List PyClass)
    (h : abstractScan dict bases = none) :
    ∀ b ∈ bases, ∀ p ∈ b.dict, memCallable p.2 = true → memAbstract p.2 = true →
      dictHasKey dict p.1 = true := by
  induction bases with
  | nil =>
    intro b hb
    simp at hb
  | cons b0 bs ih =>
    intro b hb p hp hc ha
    simp only [abstractScan] at h
    cases hd : abstractScanDict dict b0.dict with
    | some e => rw [hd] at h; simp at h
    | none =>
      rw [hd] at h
      simp only [] at h
      rcases List.mem_cons.1 hb with rfl | hbs
      · exact abstractScanDict_none_sound dict b.dict hd p hp hc ha
      · exact ih h b hbs p hp hc ha

/-- An abstract callable of the scanned base dictionary with no same-named
entry in the new dictionary makes the loop raise `AbstractMethodException`. -/
theorem abstractScanDict_viol (dict bdict : List (String × Member))
    (h : ∃ p ∈ bdict, memCallable p.2 = true ∧ memAbstract p.2 = true ∧
      dictHasKey dict p.1 = false) :
    abstractScanDict dict bdict = some .abstractErr := by
  induction bdict with
  | nil => simp at h
  | cons q rest ih =>
    obtain ⟨nm, m⟩ := q
    cases hcond : (memCallable m && memAbstract m && !dictHasKey dict nm) with
    | true => simp [abstractScanDict, hcond]
    | false =>
      simp only [abstractScanDict, hcond, Bool.false_eq_true, if_false]
      rcases h with ⟨p, hp, h1, h2, h3⟩
      rcases List.mem_cons.1 hp with rfl | hp2
      · exact absurd hcond (by simp [h1, h2, h3])
      · exact ih ⟨p, hp2, h1, h2, h3⟩

/-- The per-base abstract loop produces no error other than
`AbstractMethodException`. -/
theorem abstractScanDict_some (dict bdict : List (String × Member)) (e : DeclErr)
    (h : abstractScanDict dict bdict = some e) : e = DeclErr.abstractErr := by
  induction bdict with
  | nil => simp [abstractScanDict] at h
  | cons q rest ih =>
    obtain ⟨nm, m⟩ := q
    simp only [abstractScanDict] at h
    cases hcond : (memCallable m && memAbstract m && !dictHasKey dict nm) with
    | true =>
      rw [hcond] at h
      simp at h
      exact h.symm
    | false =>
      rw [hcond] at h
      simp at h
      exact ih h

/-- An unimplemented abstract callable in some base makes the abstract loop
raise `AbstractMethodException`. -/
theorem abstractScan_viol (dict : List (String × Member)) (bases : List PyClass)
    (h : ∃ b ∈ bases, ∃ p ∈ b.dict, memCallable p.2 = true ∧ memAbstract p.2 = true ∧
      dictHasKey dict p.1 = false) :
    abstractScan dict bases = some .abstractErr := by
  induction bases with
  | nil => simp at h
  | cons b0 bs ih =>
    rcases h with ⟨b, hb, hpE⟩
    rcases List.mem_cons.1 hb with rfl | hbs
    · rw [abstractScan, abstractScanDict_viol dict b.dict hpE]
    · simp only [abstractScan]
      cases hd : abstractScanDict dict b0.dict with
      | some e =>
        rw [abstractScanDict_some dict b0.dict e hd]
      | none => exact ih ⟨b, hbs, hpE⟩

/-- C4 (amended): a member callable lacking a declared return TypeSpec does
not abort class construction — the class is built (here over `BaseObject`)
and remains usable — and the `AnnotationException` for the missing return
annotation is instead raised by the wrapper at every call of the method,
before the body can run. -/
theorem missing_ret_deferred (name n : String) (f : PyFun)
    (hf : f.retAnn = none) (paramAnns : List (String × PyType)) (head : Bool)
    (body : List PyVal → List (String × PyVal) → Except String PyVal)
    (args : List PyVal) (kwargs : List (String × PyVal)) :
    makeClass name [baseObjectC] [(n, Member.fn f)] none =
      .ok ⟨name, [(n, Member.fn f)], baseObjFriends⟩ ∧
    forceStatic f.retAnn paramAnns head body args kwargs =
      .raisedBefore .missingRetAnn := by
  constructor
  · rw [makeClass_ok_iff]
    refine ⟨?_, rfl, ?_⟩
    · have hfil : ([baseObjectC].filter (fun b => !(b.name == "BaseObject"))) =
          ([] : List PyClass) := rfl
      rw [hfil]
      simp [wrapChecks, entryBasesErr]
    · simp [classFriends, inheritedFriends, baseObjectC]
  · rw [hf]
    rfl

/-- Witness for C4's amended theorem at a concrete class and call. -/
theorem missing_ret_deferred_witness :
    makeClass "Test" [baseObjectC]
      [("method", Member.fn ⟨false, false, false, none⟩)] none =
      .ok ⟨"Test", [("method", Member.fn ⟨false, false, false, none⟩)], baseObjFriends⟩ ∧
    forceStatic none [] true (fun _ _ => Except.ok PyVal.vNone) [PyVal.vNone] [] =
      .raisedBefore .missingRetAnn :=
  missing_ret_deferred "Test" "method" ⟨false, false, false, none⟩ rfl [] true
    (fun _ _ => Except.ok PyVal.vNone) [PyVal.vNone] []

/-- C4 (counterexample): the claim says a member callable without a return
annotation aborts class construction at declaration time and the type
never becomes usable.  Concretely, constructing `Test` with such a
`method` succeeds, and the `AnnotationException` only appears when the
wrapped method is called. -/
theorem missing_ret_not_decl_time_counterexample :
    makeClass "Test2" [baseObjectC]
      [("method", Member.fn ⟨false, false, false, none⟩)] none =
      .ok ⟨"Test2", [("method", Member.fn ⟨false, false, false, none⟩)], baseObjFriends⟩ ∧
    forceStatic none [] true (fun _ _ => Except.ok PyVal.vNone) [PyVal.vNone] [] =
      .raisedBefore .missingRetAnn :=
  ⟨by decide, rfl⟩

/-- C5 (amended): at class definition time, for each direct base other
than `BaseObject` sharing a member name with a callable, non-blacklisted
dictionary entry of the new class: if the base member is not flagged
virtual or abstract, `VirtualMethodException` is raised; if it is so
flagged but the new member is not flagged override, `OverrideMethodException`
is raised; a class that is successfully created has no such violation.
Only the three accessor names `__getattr__`, `__setattr__`,
`__getattribute__` are exempt — lifecycle methods such as the constructor
are not (see the counterexample). -/
theorem virtual_override_checks :
    (∀ (name : String) (bases : List PyClass) (dict : List (String × Member))
        (declared : Option (Finset String)) (c : PyClass),
      makeClass name bases dict declared = .ok c →
      ∀ (n : String) (f : PyFun), (n, Member.fn f) ∈ dict → blacklisted n = false →
      ∀ b ∈ bases, (b.name == "BaseObject") = false →
      ∀ m, b.dict.lookup n = some m →
        (memVirtual m || memAbstract m) = true ∧ f.isOverride = true) ∧
    (∀ (name n : String) (f : PyFun) (b : PyClass) (m : Member)
        (declared : Option (Finset String)),
      blacklisted n = false → (b.name == "BaseObject") = false →
      b.dict.lookup n = some m → (memVirtual m || memAbstract m) = false →
      makeClass name [b] [(n, Member.fn f)] declared = .error .virtualErr) ∧
    (∀ (name n : String) (f : PyFun) (b : PyClass) (m : Member)
        (declared : Option (Finset String)),
      blacklisted n = false → (b.name == "BaseObject") = false →
      b.dict.lookup n = some m → (memVirtual m || memAbstract m) = true →
      f.isOverride = false →
      makeClass name [b] [(n, Member.fn f)] declared = .error .overrideErr) ∧
    (∀ (n : String) (f : PyFun) (bases : List PyClass),
      blacklisted n = true → wrapChecks bases [(n, Member.fn f)] = none) := by
  refine ⟨?_, ?_, ?_, ?_⟩
  · intro name bases dict declared c hok n f hmem hbl b hb hbn m hm
    have hw := ((makeClass_ok_iff name bases dict declared c).1 hok).1
    have he := wrapChecks_none_sound _ dict hw n f hmem hbl
    have hbf : b ∈ bases.filter (fun x => !(x.name == "BaseObject")) := by
      refine List.mem_filter.2 ⟨hb, ?_⟩
      simp [hbn]
    exact entryBasesErr_none_sound f n _ he b hbf m hm
  · intro name n f b m declared hbl hbn hm hva
    have hbe : entryBaseErr f n b = some DeclErr.virtualErr := by
      have h0 : entryBaseErr f n b =
          (if (!(memVirtual m || memAbstract m)) = true then some DeclErr.virtualErr
           else if (!f.isOverride) = true then some DeclErr.overrideErr
           else none) := by
        unfold entryBaseErr
        rw [hm]
      rw [h0, hva]
      rfl
    have hwc : wrapChecks [b] [(n, Member.fn f)] = some DeclErr.virtualErr := by
      simp only [wrapChecks, hbl, Bool.false_eq_true, if_false, entryBasesErr, hbe]
    have hfil : ([b].filter (fun x => !(x.name == "BaseObject"))) = [b] := by
      simp [List.filter, hbn]
    unfold makeClass
    rw [hfil, hwc]
  · intro name n f b m declared hbl hbn hm hva ho
    have hbe : entryBaseErr f n b = some DeclErr.overrideErr := by
      have h0 : entryBaseErr f n b =
          (if (!(memVirtual m || memAbstract m)) = true then some DeclErr.virtualErr
           else if (!f.isOverride) = true then some DeclErr.overrideErr
           else none) := by
        unfold entryBaseErr
        rw [hm]
      rw [h0, hva, ho]
      rfl
    have hwc : wrapChecks [b] [(n, Member.fn f)] = some DeclErr.overrideErr := by
      simp only [wrapChecks, hbl, Bool.false_eq_true, if_false, entryBasesErr, hbe]
    have hfil : ([b].filter (fun x => !(x.name == "BaseObject"))) = [b] := by
      simp [List.filter, hbn]
    unfold makeClass
    rw [hfil, hwc]
  · intro n f bases hbl
    simp [wrapChecks, hbl]

/-- Witness for C5's amended theorem: `Base.method` is neither virtual nor
abstract, so defining `Derived.method` — even carrying the override marker
— raises `VirtualMethodException` at `Derived`'s definition. -/
theorem virtual_override_checks_witness :
    makeClass "Derived"
      [⟨"Base", [("method", Member.fn ⟨false, false, false, some PyType.intT⟩)],
        baseObjFriends⟩]
      [("method", Member.fn ⟨false, false, true, some PyType.intT⟩)] none =
      .error .virtualErr :=
  virtual_override_checks.2.1 "Derived" "method"
    ⟨false, false, true, some PyType.intT⟩
    ⟨"Base", [("method", Member.fn ⟨false, false, false, some PyType.intT⟩)],
      baseObjFriends⟩
    (Member.fn ⟨false, false, false, some PyType.intT⟩) none
    (by decide) (by decide) (by decide) (by decide)

/-- C5 (counterexample): the claim exempts special/lifecycle methods such
as the constructor, but only the three accessor names are blacklisted.
`A` (deriving `BaseObject`) declares `__init__`; `B(A)` declaring its own
`__init__` is rejected with `VirtualMethodException` instead of being
accepted. -/
theorem ctor_not_exempt_counterexample :
    makeClass "A" [baseObjectC]
      [("__init__", Member.fn ⟨false, false, false, some PyType.noneT⟩)] none =
      .ok ⟨"A", [("__init__", Member.fn ⟨false, false, false, some PyType.noneT⟩)],
        baseObjFriends⟩ ∧
    makeClass "B"
      [⟨"A", [("__init__", Member.fn ⟨false, false, false, some PyType.noneT⟩)],
        baseObjFriends⟩]
      [("__init__", Member.fn ⟨false, false, false, some PyType.noneT⟩)] none =
      .error .virtualErr := by
  decide

/-- C6 (amended): at a subclass's definition time (not at instantiation),
every callable member flagged abstract in a direct base's own dictionary
must have a same-named entry in the subclass's own dictionary; otherwise
— whenever the wrap-time checks pass — construction raises
`AbstractMethodException` and the class is never created.  A concrete
implementation elsewhere in the inheritance chain does not satisfy the
check (see the counterexample). -/
theorem abstract_impl_checks :
    (∀ (name : String) (bases : List PyClass) (dict : List (String × Member))
        (declared : Option (Finset String)) (c : PyClass),
      makeClass name bases dict declared = .ok c →
      ∀ b ∈ bases, ∀ p ∈ b.dict, memCallable p.2 = true → memAbstract p.2 = true →
        dictHasKey dict p.1 = true) ∧
    (∀ (name : String) (bases : List PyClass) (dict : List (String × Member))
        (declared : Option (Finset String)),
      wrapChecks (bases.filter (fun b => !(b.name == "BaseObject"))) dict = none →
      (∃ b ∈ bases, ∃ p ∈ b.dict, memCallable p.2 = true ∧ memAbstract p.2 = true ∧
        dictHasKey dict p.1 = false) →
      makeClass name bases dict declared = .error .abstractErr) := by
  constructor
  · intro name bases dict declared c hok
    exact abstractScan_none_sound dict bases
      (((makeClass_ok_iff name bases dict declared c).1 hok).2.1)
  · intro name bases dict declared hw hex
    unfold makeClass
    rw [hw, abstractScan_viol dict bases hex]

/-- Witness for C6's amended theorem: `Test` declares abstract `method`;
`Derived(Test)` with an empty dictionary is rejected with
`AbstractMethodException` at its definition. -/
theorem abstract_impl_checks_witness :
    makeClass "Derived"
      [⟨"Test", [("method", Member.fn ⟨false, true, false, some PyType.intT⟩)],
        baseObjFriends⟩] [] none = .error .abstractErr :=
  abstract_impl_checks.2 "Derived"
    [⟨"Test", [("method", Member.fn ⟨false, true, false, some PyType.intT⟩)],
      baseObjFriends⟩] [] none (by decide)
    ⟨⟨"Test", [("method", Member.fn ⟨false, true, false, some PyType.intT⟩)],
      baseObjFriends⟩, by decide,
      ("method", Member.fn ⟨false, true, false, some PyType.intT⟩), by decide,
      by decide, by decide, by decide⟩

/-- C6 (counterexample): `A` declares abstract `m`; `B(A)` implements `m`
concretely (flagged override).  The chain of `C(B, A)` therefore contains a
concrete same-named implementation of every abstract ancestor member, yet
constructing `C` with an empty dictionary raises `AbstractMethodException`,
because the loop only consults the new class's own dictionary. -/
theorem abstract_chain_counterexample :
    makeClass "A" [baseObjectC]
      [("m", Member.fn ⟨false, true, false, some PyType.intT⟩)] none =
      .ok ⟨"A", [("m", Member.fn ⟨false, true, false, some PyType.intT⟩)],
        baseObjFriends⟩ ∧
    makeClass "B"
      [⟨"A", [("m", Member.fn ⟨false, true, false, some PyType.intT⟩)],
        baseObjFriends⟩]
      [("m", Member.fn ⟨false, false, true, some PyType.intT⟩)] none =
      .ok ⟨"B", [("m", Member.fn ⟨false, false, true, some PyType.intT⟩)],
        baseObjFriends⟩ ∧
    makeClass "C"
      [⟨"B", [("m", Member.fn ⟨false, false, true, some PyType.intT⟩)],
        baseObjFriends⟩,
       ⟨"A", [("m", Member.fn ⟨false, true, false, some PyType.intT⟩)],
        baseObjFriends⟩] [] none = .error .abstractErr := by
  refine ⟨by decide, by decide, by decide⟩

/-- C7 (amended): a newly constructed class's friend set is its own
declared friends — or, when it declares none, the friend set found by
attribute lookup on its first base — unioned with `BaseObject`'s friend
set, the `__mro__[-2]` entry.  The direct bases' friend sets are not
themselves merged, so a class declaring its own friends drops its
ancestors' declared friends (see the counterexample). -/
theorem friends_construction (declared : Option (Finset String))
    (bases : List PyClass) :
    baseObjFriends ⊆ classFriends declared bases ∧
    classFriends none bases = inheritedFriends bases ∪ baseObjFriends ∧
    (∀ s, classFriends (some s) bases = s ∪ baseObjFriends) ∧
    (∀ (name : String) (dict : List (String × Member)) (c : PyClass),
      makeClass name bases dict declared = .ok c →
      c.friends = classFriends declared bases) := by
  refine ⟨?_, rfl, fun s => rfl, ?_⟩
  · intro x hx
    exact Finset.mem_union_right _ hx
  · intro name dict c hok
    rw [((makeClass_ok_iff name bases dict declared c).1 hok).2.2]

/-- Witness for C7's amended theorem: the class built from declared
friends {"F"} over `BaseObject` carries exactly the friend set the
construction rule computes. -/
theorem friends_construction_witness :
    ((⟨"C", [], {"F", "inspect._getmembers"}⟩ : PyClass)).friends =
      classFriends (some {"F"}) [baseObjectC] :=
  (friends_construction (some {"F"}) [baseObjectC]).2.2.2 "C" []
    ⟨"C", [], {"F", "inspect._getmembers"}⟩ (by decide)

/-- C7 (counterexample): `C(BaseObject)` declares friends {"F"}; `D(C)`
declares friends {"G"}.  The claim predicts `D`'s friend set includes all
of `C`'s (own declared friends unioned with every direct base's set), but
the construction yields {"G", "inspect._getmembers"}: the direct base's
declared friend "F" is dropped, so friend sets are not monotonically
non-shrinking. -/
theorem friends_not_merged_counterexample :
    makeClass "C" [baseObjectC] [] (some {"F"}) =
      .ok ⟨"C", [], {"F", "inspect._getmembers"}⟩ ∧
    makeClass "D" [⟨"C", [], {"F", "inspect._getmembers"}⟩] [] (some {"G"}) =
      .ok ⟨"D", [], {"G", "inspect._getmembers"}⟩ ∧
    ¬ ((⟨"C", [], {"F", "inspect._getmembers"}⟩ : PyClass).friends ⊆
        (⟨"D", [], {"G", "inspect._getmembers"}⟩ : PyClass).friends) := by
  refine ⟨by decide, by decide, by decide⟩

/-- Reduction of the access resolver for a non-dunder, underscore-prefixed
read from a method frame (a caller with a bound receiver): the decision is
the three-way cascade over the receiver's class. -/
theorem getattr_reduce (ctx : GetCtx) (caller : Caller) (item crn : String)
    (hrecv : caller.receiverClass = some crn)
    (hmagic : ((pyStarts item "__" && pyEnds item "__") ||
      caller.globalsName == "inspect") = false)
    (hund : pyStarts item "_" = true) :
    baseGetattribute ctx caller item =
      (if crn ∈ ctx.mroNames ∧
          (!(pyStarts (pyRemovePre item ("_" ++ ctx.selfClassName)) "__")) = true then
        Except.ok item
      else if crn ∈ ctx.friends then
        Except.ok (pyReplace item ("_" ++ crn) ("_" ++ ctx.selfClassName))
      else if crn ++ "." ++ caller.functionName ∈ ctx.friends then Except.ok item
      else Except.error ()) := by
  have hno : ¬(caller.functionName ∈ ctx.friends ∧ caller.receiverClass = none) := by
    rw [hrecv]
    exact fun h => Option.noConfusion h.2
  unfold baseGetattribute
  rw [hmagic, hund, hrecv]
  simp [hno]

/-- C8: with `Base` declaring private `__x` (stored under `_Base__x`) and
`Derived(Base)`, a `Derived` method reading `self.__x` — the read site's
key is `_Derived__x` — on a `Derived` instance raises
`AccessModifierException`, while the same method reading the inherited
protected `_x` succeeds: the ancestor-typed caller is granted protected
members but the private member stays invisible, for every caller function
name, friend set not friending the access, and caller module other than
`inspect`. -/
theorem derived_private_refused_protected_granted (F : Finset String)
    (g gl : String) (hgl : (gl == "inspect") = false) (hcls : "Derived" ∉ F)
    (hmeth : ("Derived" ++ "." ++ g) ∉ F) :
    baseGetattribute ⟨"Derived", ["Derived", "Base"], F⟩ ⟨gl, g, some "Derived"⟩
      "_Derived__x" = .error () ∧
    baseGetattribute ⟨"Derived", ["Derived", "Base"], F⟩ ⟨gl, g, some "Derived"⟩
      "_x" = .ok "_x" := by
  constructor
  · rw [getattr_reduce _ _ _ "Derived" rfl (by rw [show (pyStarts "_Derived__x" "__" &&
        pyEnds "_Derived__x" "__") = false from by decide, hgl]; rfl) (by decide)]
    dsimp only
    rw [if_neg (fun h => absurd h.2 (by decide)), if_neg hcls, if_neg hmeth]
  · rw [getattr_reduce _ _ _ "Derived" rfl (by rw [show (pyStarts "_x" "__" &&
        pyEnds "_x" "__") = false from by decide, hgl]; rfl) (by decide)]
    dsimp only
    rw [if_pos ⟨by decide, by decide⟩]

/-- Witness for C8 with an empty friend set and concrete caller names. -/
theorem derived_private_refused_protected_granted_witness :
    baseGetattribute ⟨"Derived", ["Derived", "Base"], ∅⟩ ⟨"tst", "getx", some "Derived"⟩
      "_Derived__x" = .error () ∧
    baseGetattribute ⟨"Derived", ["Derived", "Base"], ∅⟩ ⟨"tst", "getx", some "Derived"⟩
      "_x" = .ok "_x" :=
  derived_private_refused_protected_granted ∅ "getx" "tst" (by decide) (by decide)
    (by decide)

/-- C9: with "Friend" listed in `Base`'s friend set, a `Friend` method
reading a `Base` instance's protected `_x` succeeds, and reading its
private `__x` — the read site's key being the caller-class-qualified guess
`_Friend__x` — succeeds with the key remapped to the declaring class's
true key `_Base__x`; a class "Enemy" not listed (nor its qualified method)
performing the identical reads is denied with `AccessModifierException`. -/
theorem friend_access_granted (F : Finset String) (g gl : String)
    (hgl : (gl == "inspect") = false) (hfr : "Friend" ∈ F)
    (hen : "Enemy" ∉ F) (henm : ("Enemy" ++ "." ++ g) ∉ F) :
    baseGetattribute ⟨"Base", ["Base"], F⟩ ⟨gl, g, some "Friend"⟩ "_Friend__x" =
      .ok "_Base__x" ∧
    baseGetattribute ⟨"Base", ["Base"], F⟩ ⟨gl, g, some "Friend"⟩ "_x" =
      .ok "_x" ∧
    baseGetattribute ⟨"Base", ["Base"], F⟩ ⟨gl, g, some "Enemy"⟩ "_Enemy__x" =
      .error () ∧
    baseGetattribute ⟨"Base", ["Base"], F⟩ ⟨gl, g, some "Enemy"⟩ "_x" =
      .error () := by
  refine ⟨?_, ?_, ?_, ?_⟩
  · rw [getattr_reduce _ _ _ "Friend" rfl (by rw [show (pyStarts "_Friend__x" "__" &&
        pyEnds "_Friend__x" "__") = false from by decide, hgl]; rfl) (by decide)]
    dsimp only
    rw [if_neg (fun h => absurd h.1 (by decide)), if_pos hfr]
    decide
  · rw [getattr_reduce _ _ _ "Friend" rfl (by rw [show (pyStarts "_x" "__" &&
        pyEnds "_x" "__") = false from by decide, hgl]; rfl) (by decide)]
    dsimp only
    rw [if_neg (fun h => absurd h.1 (by decide)), if_pos hfr]
    decide
  · rw [getattr_reduce _ _ _ "Enemy" rfl (by rw [show (pyStarts "_Enemy__x" "__" &&
        pyEnds "_Enemy__x" "__") = false from by decide, hgl]; rfl) (by decide)]
    dsimp only
    rw [if_neg (fun h => absurd h.1 (by decide)), if_neg hen, if_neg henm]
  · rw [getattr_reduce _ _ _ "Enemy" rfl (by rw [show (pyStarts "_x" "__" &&
        pyEnds "_x" "__") = false from by decide, hgl]; rfl) (by decide)]
    dsimp only
    rw [if_neg (fun h => absurd h.1 (by decide)), if_neg hen, if_neg henm]

/-- Witness for C9 with the friend set {"Friend"} and concrete names. -/
theorem friend_access_granted_witness :
    baseGetattribute ⟨"Base", ["Base"], {"Friend"}⟩ ⟨"tst", "m", some "Friend"⟩
      "_Friend__x" = .ok "_Base__x" ∧
    baseGetattribute ⟨"Base", ["Base"], {"Friend"}⟩ ⟨"tst", "m", some "Friend"⟩
      "_x" = .ok "_x" ∧
    baseGetattribute ⟨"Base", ["Base"], {"Friend"}⟩ ⟨"tst", "m", some "Enemy"⟩
      "_Enemy__x" = .error () ∧
    baseGetattribute ⟨"Base", ["Base"], {"Friend"}⟩ ⟨"tst", "m", some "Enemy"⟩
      "_x" = .error () :=
  friend_access_granted {"Friend"} "m" "tst" (by decide) (by decide) (by decide)
    (by decide)

end StrictPython
